import Mathlib

/-!
# Verification of the plugin registry, CSS injection helper and menu builder

Shallow embedding of `src/plugins/utils.ts`, the default configuration table
(`src/config/defaults`) and the menu-builder module (`menu.ts`).

Modelling conventions:
* The runtime platform (queried through `electron-is` / `process.platform`)
  is an explicit `Platform` argument; `is.windows()` becomes `p = .windows`,
  `is.macOS()` becomes `p = .macos`, `is.linux()` becomes `p = .linux`.
  `Platform.other` covers any remaining `process.platform` value.
* JavaScript `Map`s are association lists in insertion order; `Map.set`
  (`mapSet` below) overwrites the value of an existing key in place and
  appends fresh keys at the end, exactly as ECMAScript specifies.
* Callbacks are identified by `Option Nat` tags (a `none` tag is the
  `undefined` default parameter); invoking a callback is recorded, not run.
* Browser-content targets (`Electron.WebContents`) are `Nat` identifiers.
-/

/-- The runtime platform, as discriminated by `electron-is`. -/
inductive Platform
  | windows
  | macos
  | linux
  | other
  deriving DecidableEq, Repr

/-- Keys of `defaultConfig.plugins` in declaration order
(`src/config/defaults`, the Default Configuration Table). -/
def defaultConfigPluginNames : List String :=
  ["navigation", "shortcuts", "adblocker", "downloader"]

/-- The filter predicate inside `getAvailablePluginNames`
(`src/plugins/utils.ts` lines 63-72), transcribed branch for branch:
`touchbar` is dropped on Windows, `taskbar-mediacontrol` on macOS, and both
on Linux. -/
def availablePluginFilter (p : Platform) (name : String) : Bool :=
  if p = .windows ∧ name = "touchbar" then false
  else if p = .macos ∧ name = "taskbar-mediacontrol" then false
  else if p = .linux ∧ (name = "taskbar-mediacontrol" ∨ name = "touchbar") then false
  else true

/-- `getAvailablePluginNames` over an arbitrary key list (the source applies
it to `Object.keys(defaultConfig.plugins)`). -/
def getAvailablePluginNamesFrom (p : Platform) (names : List String) : List String :=
  names.filter (availablePluginFilter p)

/-- `getAvailablePluginNames()` itself: the filter applied to the keys of the
Default Configuration Table's `plugins` object. -/
def getAvailablePluginNames (p : Platform) : List String :=
  getAvailablePluginNamesFrom p defaultConfigPluginNames

/-- The exclusion rule exactly as the spec words it: keep a name unless it is
`touchbar` on Windows/Linux or `taskbar-mediacontrol` on macOS/Linux. -/
def specPluginKeep (p : Platform) (name : String) : Bool :=
  ¬((name = "touchbar" ∧ (p = .windows ∨ p = .linux)) ∨
    (name = "taskbar-mediacontrol" ∧ (p = .macos ∨ p = .linux)))

/-- C1: on every platform the available plugin list is the default table's
key sequence filtered only by the static exclusion rule (`touchbar` dropped
on Windows/Linux, `taskbar-mediacontrol` dropped on macOS/Linux), with no
other removals, additions or reordering; the function is pure, so a fixed
platform and fixed table always give the same ordered list.  For the table
in `src/config/defaults`, which declares neither reserved name, the result
is the full key sequence on every platform. -/
theorem getAvailablePluginNames_spec :
    ∀ (p : Platform) (names : List String),
      getAvailablePluginNamesFrom p names = names.filter (specPluginKeep p) ∧
      getAvailablePluginNames p = defaultConfigPluginNames ∧
      getAvailablePluginNamesFrom p names = getAvailablePluginNamesFrom p names := by
  intro p names
  refine ⟨?_, ?_, rfl⟩
  · unfold getAvailablePluginNamesFrom
    apply List.filter_congr
    intro a _
    by_cases h1 : a = "touchbar" <;> by_cases h2 : a = "taskbar-mediacontrol" <;>
      cases p <;> simp [availablePluginFilter, specPluginKeep, h1, h2]
  · cases p <;> rfl

/-!
## CSS injection helper (`src/plugins/utils.ts` lines 30-61)

The two module-level maps `cssToInject` and `cssToInjectFile` are global
state shared by every call, so the model threads one `CssState` through the
operations.  `observers` records, in attachment order, the target each
`setupCssInjection` call subscribed to `did-finish-load`.
-/

/-- ECMAScript `Map.prototype.set`: overwrite an existing key's value in
place, append a fresh key at the end. -/
def mapSet (m : List (String × Option Nat)) (k : String) (v : Option Nat) :
    List (String × Option Nat) :=
  if k ∈ m.map Prod.fst then
    m.map (fun q => if q.1 = k then (k, v) else q)
  else m ++ [(k, v)]

/-- The module-level mutable state of `src/plugins/utils.ts`:
`cssToInject`, `cssToInjectFile`, and the set of `did-finish-load`
subscriptions created by `setupCssInjection`. -/
structure CssState where
  cssToInject : List (String × Option Nat)
  cssToInjectFile : List (String × Option Nat)
  observers : List Nat
  deriving DecidableEq, Repr

/-- The state before any registration: both maps empty, no observer. -/
def emptyCssState : CssState := ⟨[], [], []⟩

/-- `setupCssInjection(webContents)`: subscribe to `did-finish-load` on the
given target. -/
def setupCssInjection (wc : Nat) (s : CssState) : CssState :=
  { s with observers := s.observers ++ [wc] }

/-- `injectCSS(webContents, css, cb)`: when both maps are empty, first call
`setupCssInjection(webContents)`; then `cssToInject.set(css, cb)`. -/
def injectCSS (wc : Nat) (css : String) (cb : Option Nat) (s : CssState) : CssState :=
  let s1 := if s.cssToInject.length = 0 ∧ s.cssToInjectFile.length = 0 then
    setupCssInjection wc s else s
  { s1 with cssToInject := mapSet s1.cssToInject css cb }

/-- `injectCSSAsFile(webContents, filepath, cb)`: same emptiness guard, then
`cssToInjectFile.set(filepath, cb)`. -/
def injectCSSAsFile (wc : Nat) (filepath : String) (cb : Option Nat) (s : CssState) :
    CssState :=
  let s1 := if s.cssToInject.length = 0 ∧ s.cssToInjectFile.length = 0 then
    setupCssInjection wc s else s
  { s1 with cssToInjectFile := mapSet s1.cssToInjectFile filepath cb }

/-- A stylesheet source: the literal CSS text of an inline entry, or the
file path of a file-based entry. -/
inductive CssSource
  | inline (css : String)
  | file (path : String)
  deriving DecidableEq, Repr

/-- One `webContents.insertCSS` application started by the
`did-finish-load` handler, together with the completion callback the
handler invokes for it. -/
structure CssApp where
  target : Nat
  source : CssSource
  callback : Option Nat
  deriving DecidableEq, Repr

/-- What one run of the `did-finish-load` handler body does
(`setupCssInjection`, lines 49-59): every `cssToInject` entry is applied in
map order, then every `cssToInjectFile` entry in map order. -/
def firePass (t : Nat) (s : CssState) : List CssApp :=
  s.cssToInject.map (fun q => ⟨t, CssSource.inline q.1, q.2⟩) ++
    s.cssToInjectFile.map (fun q => ⟨t, CssSource.file q.1, q.2⟩)

/-- A `did-finish-load` event on target `t`: each handler subscribed to `t`
runs the body once. -/
def fire (t : Nat) (s : CssState) : List CssApp :=
  ((s.observers.filter (fun o => o == t)).map (fun _ => firePass t s)).flatten

lemma mapSet_of_not_mem (m : List (String × Option Nat)) (k : String) (v : Option Nat)
    (h : k ∉ m.map Prod.fst) : mapSet m k v = m ++ [(k, v)] := by
  simp [mapSet, h]

lemma mapSet_append_self (m : List (String × Option Nat)) (k : String) (v1 v2 : Option Nat)
    (h : k ∉ m.map Prod.fst) : mapSet (m ++ [(k, v1)]) k v2 = m ++ [(k, v2)] := by
  have hmem : k ∈ (m ++ [(k, v1)]).map Prod.fst := by simp
  rw [mapSet, if_pos hmem, List.map_append]
  congr 1
  · have hpt : ∀ q ∈ m, (if q.1 = k then ((k, v2) : String × Option Nat) else q) = q := by
      intro q hq
      refine if_neg fun e => h ?_
      exact e ▸ List.mem_map_of_mem Prod.fst hq
    rw [List.map_congr_left hpt]
    exact List.map_id m
  · simp

lemma injectCSS_cssToInject (wc : Nat) (css : String) (cb : Option Nat) (s : CssState) :
    (injectCSS wc css cb s).cssToInject = mapSet s.cssToInject css cb := by
  unfold injectCSS setupCssInjection
  split <;> rfl

lemma injectCSS_cssToInjectFile (wc : Nat) (css : String) (cb : Option Nat) (s : CssState) :
    (injectCSS wc css cb s).cssToInjectFile = s.cssToInjectFile := by
  unfold injectCSS setupCssInjection
  split <;> rfl

lemma injectCSSAsFile_cssToInject (wc : Nat) (fp : String) (cb : Option Nat) (s : CssState) :
    (injectCSSAsFile wc fp cb s).cssToInject = s.cssToInject := by
  unfold injectCSSAsFile setupCssInjection
  split <;> rfl

lemma injectCSSAsFile_cssToInjectFile (wc : Nat) (fp : String) (cb : Option Nat)
    (s : CssState) :
    (injectCSSAsFile wc fp cb s).cssToInjectFile = mapSet s.cssToInjectFile fp cb := by
  unfold injectCSSAsFile setupCssInjection
  split <;> rfl

lemma fire_of_count_one (t : Nat) (s : CssState) (h : s.observers.count t = 1) :
    fire t s = firePass t s := by
  rw [fire, List.filter_beq, h]
  simp

/-- C2 counterexample: schedule inline CSS "a" for target 0 from the empty
module state, then inline CSS "b" for the distinct target 1.  Only target 0
ever receives a `did-finish-load` observer, a load-completion event on
target 1 applies nothing, and a load-completion event on target 0 applies
"b" — the stylesheet that was registered with target 1 as argument — to
target 0. -/
theorem injectCSS_two_targets_counterexample :
    (injectCSS 1 "b" none (injectCSS 0 "a" none emptyCssState)).observers = [0] ∧
    fire 1 (injectCSS 1 "b" none (injectCSS 0 "a" none emptyCssState)) = [] ∧
    CssApp.mk 0 (CssSource.inline "b") none ∈
      fire 0 (injectCSS 1 "b" none (injectCSS 0 "a" none emptyCssState)) := by
  decide

/-- C2 amended: a registration (inline or file-based) attaches a
load-completion observer — to that call's target — exactly when both
module-level maps are still empty, i.e. only the globally first
registration does; any later registration, in particular the first one for
a second distinct target, attaches no observer. -/
theorem injectCSS_observer_attachment :
    ∀ (s : CssState) (t : Nat) (css : String) (cb : Option Nat),
      (injectCSS t css cb s).observers =
        (if s.cssToInject = [] ∧ s.cssToInjectFile = [] then s.observers ++ [t]
          else s.observers) ∧
      (injectCSSAsFile t css cb s).observers =
        (if s.cssToInject = [] ∧ s.cssToInjectFile = [] then s.observers ++ [t]
          else s.observers) := by
  intro s t css cb
  by_cases h : s.cssToInject = [] ∧ s.cssToInjectFile = []
  · simp [injectCSS, injectCSSAsFile, setupCssInjection, h, h.1, h.2]
  · have h' : ¬(s.cssToInject.length = 0 ∧ s.cssToInjectFile.length = 0) := by
      simpa [List.length_eq_zero] using h
    simp [injectCSS, injectCSSAsFile, setupCssInjection, h, h', if_neg]

/-- C3: registering two distinct inline stylesheets for the same target
(starting from the empty module state) makes every load-completion event on
that target apply both, in registration order; two successive events
therefore start exactly four `insertCSS` applications — the registrations
are cumulative, never consumed. -/
theorem injectCSS_cumulative (t : Nat) (css1 css2 : String) (cb1 cb2 : Option Nat)
    (h : css1 ≠ css2) :
    fire t (injectCSS t css2 cb2 (injectCSS t css1 cb1 emptyCssState)) =
      [⟨t, CssSource.inline css1, cb1⟩, ⟨t, CssSource.inline css2, cb2⟩] ∧
    (fire t (injectCSS t css2 cb2 (injectCSS t css1 cb1 emptyCssState)) ++
        fire t (injectCSS t css2 cb2 (injectCSS t css1 cb1 emptyCssState))).length = 4 := by
  have hstate : injectCSS t css2 cb2 (injectCSS t css1 cb1 emptyCssState) =
      ⟨[(css1, cb1), (css2, cb2)], [], [t]⟩ := by
    simp [injectCSS, emptyCssState, setupCssInjection, mapSet, h.symm]
  rw [hstate]
  constructor
  · simp [fire, firePass]
  · simp [fire, firePass]

/-- Witness for `injectCSS_cumulative` at css1 = "a", css2 = "b". -/
theorem injectCSS_cumulative_witness :
    fire 0 (injectCSS 0 "b" (some 2) (injectCSS 0 "a" (some 1) emptyCssState)) =
      [⟨0, CssSource.inline "a", some 1⟩, ⟨0, CssSource.inline "b", some 2⟩] ∧
    (fire 0 (injectCSS 0 "b" (some 2) (injectCSS 0 "a" (some 1) emptyCssState)) ++
        fire 0 (injectCSS 0 "b" (some 2) (injectCSS 0 "a" (some 1) emptyCssState))).length
      = 4 :=
  injectCSS_cumulative 0 "a" "b" (some 1) (some 2) (by decide)

/-- C7 counterexample: register the file-based stylesheet "f" first and
the inline stylesheet "i" second, for the same target.  The load-completion
handler applies the later-registered inline entry first, because it walks
all of `cssToInject` before any of `cssToInjectFile` — cross-kind
registration order is not respected. -/
theorem fire_order_counterexample :
    fire 0 (injectCSS 0 "i" none (injectCSSAsFile 0 "f" none emptyCssState)) =
      [⟨0, CssSource.inline "i", none⟩, ⟨0, CssSource.file "f", none⟩] ∧
    fire 0 (injectCSS 0 "i" none (injectCSSAsFile 0 "f" none emptyCssState)) ≠
      [⟨0, CssSource.file "f", none⟩, ⟨0, CssSource.inline "i", none⟩] := by
  decide

/-!
Registration sequences, for the order-of-application statement: an
arbitrary interleaving of `injectCSS` and `injectCSSAsFile` calls.
-/

/-- One registration call: `injectCSS` or `injectCSSAsFile`. -/
inductive CssOp
  | opInline (target : Nat) (css : String) (cb : Option Nat)
  | opFile (target : Nat) (path : String) (cb : Option Nat)
  deriving DecidableEq, Repr

/-- Run one registration call against the module state. -/
def applyOp (s : CssState) : CssOp → CssState
  | CssOp.opInline t css cb => injectCSS t css cb s
  | CssOp.opFile t path cb => injectCSSAsFile t path cb s

/-- Run a sequence of registration calls in order. -/
def runOps (s : CssState) (ops : List CssOp) : CssState :=
  ops.foldl applyOp s

/-- The (key, callback) pairs of the inline registrations of a sequence, in
registration order. -/
def inlinePairs : List CssOp → List (String × Option Nat)
  | [] => []
  | CssOp.opInline _ css cb :: rest => (css, cb) :: inlinePairs rest
  | CssOp.opFile _ _ _ :: rest => inlinePairs rest

/-- The (key, callback) pairs of the file-based registrations of a
sequence, in registration order. -/
def filePairs : List CssOp → List (String × Option Nat)
  | [] => []
  | CssOp.opInline _ _ _ :: rest => filePairs rest
  | CssOp.opFile _ path cb :: rest => (path, cb) :: filePairs rest

lemma runOps_cssToInject : ∀ (ops : List CssOp) (s : CssState),
    ((inlinePairs ops).map Prod.fst).Nodup →
    (∀ k ∈ (inlinePairs ops).map Prod.fst, k ∉ s.cssToInject.map Prod.fst) →
    (runOps s ops).cssToInject = s.cssToInject ++ inlinePairs ops
  | [], s, _, _ => by simp [runOps, inlinePairs]
  | CssOp.opInline t css cb :: rest, s, hnd, hfresh => by
    have hcss : css ∉ s.cssToInject.map Prod.fst := by
      apply hfresh
      simp [inlinePairs]
    have hstep : (applyOp s (CssOp.opInline t css cb)).cssToInject =
        s.cssToInject ++ [(css, cb)] := by
      rw [applyOp, injectCSS_cssToInject, mapSet_of_not_mem _ _ _ hcss]
    have hnd2 : (css :: (inlinePairs rest).map Prod.fst).Nodup := hnd
    have hnd' : ((inlinePairs rest).map Prod.fst).Nodup := (List.nodup_cons.mp hnd2).2
    have hcssrest : css ∉ (inlinePairs rest).map Prod.fst := (List.nodup_cons.mp hnd2).1
    have hfresh' : ∀ k ∈ (inlinePairs rest).map Prod.fst,
        k ∉ (applyOp s (CssOp.opInline t css cb)).cssToInject.map Prod.fst := by
      intro k hk
      rw [hstep]
      simp only [List.map_append, List.mem_append]
      rintro (hmem | hmem)
      · exact hfresh k (by simp [inlinePairs, hk]) hmem
      · simp at hmem
        exact hcssrest (hmem ▸ hk)
    have ih := runOps_cssToInject rest (applyOp s (CssOp.opInline t css cb)) hnd' hfresh'
    calc (runOps s (CssOp.opInline t css cb :: rest)).cssToInject
        = (runOps (applyOp s (CssOp.opInline t css cb)) rest).cssToInject := by
          simp [runOps]
      _ = (applyOp s (CssOp.opInline t css cb)).cssToInject ++ inlinePairs rest := ih
      _ = s.cssToInject ++ inlinePairs (CssOp.opInline t css cb :: rest) := by
          rw [hstep]
          simp [inlinePairs]
  | CssOp.opFile t path cb :: rest, s, hnd, hfresh => by
    have hstep : (applyOp s (CssOp.opFile t path cb)).cssToInject = s.cssToInject := by
      rw [applyOp, injectCSSAsFile_cssToInject]
    have hnd' : ((inlinePairs rest).map Prod.fst).Nodup := by
      simpa [inlinePairs] using hnd
    have hfresh' : ∀ k ∈ (inlinePairs rest).map Prod.fst,
        k ∉ (applyOp s (CssOp.opFile t path cb)).cssToInject.map Prod.fst := by
      intro k hk
      rw [hstep]
      exact hfresh k (by simpa [inlinePairs] using hk)
    have ih := runOps_cssToInject rest (applyOp s (CssOp.opFile t path cb)) hnd' hfresh'
    calc (runOps s (CssOp.opFile t path cb :: rest)).cssToInject
        = (runOps (applyOp s (CssOp.opFile t path cb)) rest).cssToInject := by
          simp [runOps]
      _ = (applyOp s (CssOp.opFile t path cb)).cssToInject ++ inlinePairs rest := ih
      _ = s.cssToInject ++ inlinePairs (CssOp.opFile t path cb :: rest) := by
          rw [hstep]
          simp [inlinePairs]

lemma runOps_cssToInjectFile : ∀ (ops : List CssOp) (s : CssState),
    ((filePairs ops).map Prod.fst).Nodup →
    (∀ k ∈ (filePairs ops).map Prod.fst, k ∉ s.cssToInjectFile.map Prod.fst) →
    (runOps s ops).cssToInjectFile = s.cssToInjectFile ++ filePairs ops
  | [], s, _, _ => by simp [runOps, filePairs]
  | CssOp.opInline t css cb :: rest, s, hnd, hfresh => by
    have hstep : (applyOp s (CssOp.opInline t css cb)).cssToInjectFile =
        s.cssToInjectFile := by
      rw [applyOp, injectCSS_cssToInjectFile]
    have hnd' : ((filePairs rest).map Prod.fst).Nodup := hnd
    have hfresh' : ∀ k ∈ (filePairs rest).map Prod.fst,
        k ∉ (applyOp s (CssOp.opInline t css cb)).cssToInjectFile.map Prod.fst := by
      intro k hk
      rw [hstep]
      exact hfresh k hk
    have ih := runOps_cssToInjectFile rest (applyOp s (CssOp.opInline t css cb)) hnd' hfresh'
    calc (runOps s (CssOp.opInline t css cb :: rest)).cssToInjectFile
        = (runOps (applyOp s (CssOp.opInline t css cb)) rest).cssToInjectFile := by
          simp [runOps]
      _ = (applyOp s (CssOp.opInline t css cb)).cssToInjectFile ++ filePairs rest := ih
      _ = s.cssToInjectFile ++ filePairs (CssOp.opInline t css cb :: rest) := by
          rw [hstep]
          simp [filePairs]
  | CssOp.opFile t path cb :: rest, s, hnd, hfresh => by
    have hpath : path ∉ s.cssToInjectFile.map Prod.fst := by
      apply hfresh
      simp [filePairs]
    have hstep : (applyOp s (CssOp.opFile t path cb)).cssToInjectFile =
        s.cssToInjectFile ++ [(path, cb)] := by
      rw [applyOp, injectCSSAsFile_cssToInjectFile, mapSet_of_not_mem _ _ _ hpath]
    have hnd2 : (path :: (filePairs rest).map Prod.fst).Nodup := hnd
    have hnd' : ((filePairs rest).map Prod.fst).Nodup := (List.nodup_cons.mp hnd2).2
    have hpathrest : path ∉ (filePairs rest).map Prod.fst := (List.nodup_cons.mp hnd2).1
    have hfresh' : ∀ k ∈ (filePairs rest).map Prod.fst,
        k ∉ (applyOp s (CssOp.opFile t path cb)).cssToInjectFile.map Prod.fst := by
      intro k hk
      rw [hstep]
      simp only [List.map_append, List.mem_append]
      rintro (hmem | hmem)
      · exact hfresh k (by simp [filePairs, hk]) hmem
      · simp at hmem
        exact hpathrest (hmem ▸ hk)
    have ih := runOps_cssToInjectFile rest (applyOp s (CssOp.opFile t path cb)) hnd' hfresh'
    calc (runOps s (CssOp.opFile t path cb :: rest)).cssToInjectFile
        = (runOps (applyOp s (CssOp.opFile t path cb)) rest).cssToInjectFile := by
          simp [runOps]
      _ = (applyOp s (CssOp.opFile t path cb)).cssToInjectFile ++ filePairs rest := ih
      _ = s.cssToInjectFile ++ filePairs (CssOp.opFile t path cb :: rest) := by
          rw [hstep]
          simp [filePairs]

/-- C7 amended: after any sequence of registrations (with pairwise-distinct
inline keys and pairwise-distinct file keys) starting from the empty module
state, a load-completion event on the one observed target applies the
inline entries in registration order and then the file-based entries in
registration order — map-insertion order holds within each kind, but every
inline entry is applied before every file-based entry, regardless of
cross-kind registration order. -/
theorem fire_application_order (ops : List CssOp) (t : Nat)
    (hi : ((inlinePairs ops).map Prod.fst).Nodup)
    (hf : ((filePairs ops).map Prod.fst).Nodup)
    (hobs : (runOps emptyCssState ops).observers.count t = 1) :
    fire t (runOps emptyCssState ops) =
      (inlinePairs ops).map (fun q => ⟨t, CssSource.inline q.1, q.2⟩) ++
        (filePairs ops).map (fun q => ⟨t, CssSource.file q.1, q.2⟩) := by
  rw [fire_of_count_one t _ hobs, firePass,
    runOps_cssToInject ops emptyCssState hi (by simp [emptyCssState]),
    runOps_cssToInjectFile ops emptyCssState hf (by simp [emptyCssState])]
  simp [emptyCssState]

/-- Witness for `fire_application_order`: the file entry "f" registered
before the inline entry "i" is still applied after it. -/
theorem fire_application_order_witness :
    fire 0 (runOps emptyCssState [CssOp.opFile 0 "f" none, CssOp.opInline 0 "i" none]) =
      [⟨0, CssSource.inline "i", none⟩, ⟨0, CssSource.file "f", none⟩] :=
  fire_application_order [CssOp.opFile 0 "f" none, CssOp.opInline 0 "i" none] 0
    (by decide) (by decide) (by decide)

/-- C10: registering the same inline CSS text — or the same file path — a
second time does not create a second pending entry: the map keeps one entry
for that key, now holding the later call's callback, so a load-completion
event applies that stylesheet exactly once and invokes only the most
recently registered callback for it. -/
theorem injectCSS_same_key_replaces (s : CssState) (t : Nat) (css : String)
    (cb1 cb2 : Option Nat)
    (hk : css ∉ s.cssToInject.map Prod.fst)
    (hkf : css ∉ s.cssToInjectFile.map Prod.fst)
    (hobs : (injectCSS t css cb2 (injectCSS t css cb1 s)).observers.count t = 1)
    (hobsf : (injectCSSAsFile t css cb2 (injectCSSAsFile t css cb1 s)).observers.count t
      = 1) :
    (injectCSS t css cb2 (injectCSS t css cb1 s)).cssToInject =
      s.cssToInject ++ [(css, cb2)] ∧
    (injectCSS t css cb2 (injectCSS t css cb1 s)).cssToInject.length =
      (injectCSS t css cb1 s).cssToInject.length ∧
    (fire t (injectCSS t css cb2 (injectCSS t css cb1 s))).filter
        (fun a => a.source = CssSource.inline css) = [⟨t, CssSource.inline css, cb2⟩] ∧
    (injectCSSAsFile t css cb2 (injectCSSAsFile t css cb1 s)).cssToInjectFile =
      s.cssToInjectFile ++ [(css, cb2)] ∧
    (injectCSSAsFile t css cb2 (injectCSSAsFile t css cb1 s)).cssToInjectFile.length =
      (injectCSSAsFile t css cb1 s).cssToInjectFile.length ∧
    (fire t (injectCSSAsFile t css cb2 (injectCSSAsFile t css cb1 s))).filter
        (fun a => a.source = CssSource.file css) = [⟨t, CssSource.file css, cb2⟩] := by
  have h1i : (injectCSS t css cb1 s).cssToInject = s.cssToInject ++ [(css, cb1)] := by
    rw [injectCSS_cssToInject, mapSet_of_not_mem _ _ _ hk]
  have h2i : (injectCSS t css cb2 (injectCSS t css cb1 s)).cssToInject =
      s.cssToInject ++ [(css, cb2)] := by
    rw [injectCSS_cssToInject, h1i, mapSet_append_self _ _ _ _ hk]
  have h2if : (injectCSS t css cb2 (injectCSS t css cb1 s)).cssToInjectFile =
      s.cssToInjectFile := by
    rw [injectCSS_cssToInjectFile, injectCSS_cssToInjectFile]
  have h1f : (injectCSSAsFile t css cb1 s).cssToInjectFile =
      s.cssToInjectFile ++ [(css, cb1)] := by
    rw [injectCSSAsFile_cssToInjectFile, mapSet_of_not_mem _ _ _ hkf]
  have h2f : (injectCSSAsFile t css cb2 (injectCSSAsFile t css cb1 s)).cssToInjectFile =
      s.cssToInjectFile ++ [(css, cb2)] := by
    rw [injectCSSAsFile_cssToInjectFile, h1f, mapSet_append_self _ _ _ _ hkf]
  have h2fi : (injectCSSAsFile t css cb2 (injectCSSAsFile t css cb1 s)).cssToInject =
      s.cssToInject := by
    rw [injectCSSAsFile_cssToInject, injectCSSAsFile_cssToInject]
  have hnokeyi : ∀ q ∈ s.cssToInject, ¬q.1 = css := by
    intro q hq e
    exact hk (e ▸ List.mem_map_of_mem Prod.fst hq)
  have hnokeyf : ∀ q ∈ s.cssToInjectFile, ¬q.1 = css := by
    intro q hq e
    exact hkf (e ▸ List.mem_map_of_mem Prod.fst hq)
  refine ⟨h2i, ?_, ?_, h2f, ?_, ?_⟩
  · rw [h2i, h1i]
    simp
  · rw [fire_of_count_one _ _ hobs, firePass, h2i, h2if, List.filter_append,
      List.filter_map, List.filter_map]
    have hfl : s.cssToInjectFile.filter
        ((fun a : CssApp => decide (a.source = CssSource.inline css)) ∘
          (fun q => ⟨t, CssSource.file q.1, q.2⟩)) = [] := by
      simp
    have hin : (s.cssToInject ++ [(css, cb2)]).filter
        ((fun a : CssApp => decide (a.source = CssSource.inline css)) ∘
          (fun q => ⟨t, CssSource.inline q.1, q.2⟩)) = [(css, cb2)] := by
      rw [List.filter_append]
      have : s.cssToInject.filter
          ((fun a : CssApp => decide (a.source = CssSource.inline css)) ∘
            (fun q => ⟨t, CssSource.inline q.1, q.2⟩)) = [] := by
        rw [List.filter_eq_nil_iff]
        intro q hq
        simpa using hnokeyi q hq
      rw [this]
      simp
    rw [hfl, hin]
    simp
  · rw [h2f, h1f]
    simp
  · rw [fire_of_count_one _ _ hobsf, firePass, h2f, h2fi, List.filter_append,
      List.filter_map, List.filter_map]
    have hil : s.cssToInject.filter
        ((fun a : CssApp => decide (a.source = CssSource.file css)) ∘
          (fun q => ⟨t, CssSource.inline q.1, q.2⟩)) = [] := by
      simp
    have hfl : (s.cssToInjectFile ++ [(css, cb2)]).filter
        ((fun a : CssApp => decide (a.source = CssSource.file css)) ∘
          (fun q => ⟨t, CssSource.file q.1, q.2⟩)) = [(css, cb2)] := by
      rw [List.filter_append]
      have : s.cssToInjectFile.filter
          ((fun a : CssApp => decide (a.source = CssSource.file css)) ∘
            (fun q => ⟨t, CssSource.file q.1, q.2⟩)) = [] := by
        rw [List.filter_eq_nil_iff]
        intro q hq
        simpa using hnokeyf q hq
      rw [this]
      simp
    rw [hil, hfl]
    simp

/-- Witness for `injectCSS_same_key_replaces`: re-registering "x" from the
empty module state. -/
theorem injectCSS_same_key_replaces_witness :
    (injectCSS 0 "x" (some 2) (injectCSS 0 "x" (some 1) emptyCssState)).cssToInject =
      emptyCssState.cssToInject ++ [("x", some 2)] ∧
    (injectCSS 0 "x" (some 2) (injectCSS 0 "x" (some 1) emptyCssState)).cssToInject.length
      = (injectCSS 0 "x" (some 1) emptyCssState).cssToInject.length ∧
    (fire 0 (injectCSS 0 "x" (some 2) (injectCSS 0 "x" (some 1) emptyCssState))).filter
        (fun a => a.source = CssSource.inline "x") =
      [⟨0, CssSource.inline "x", some 2⟩] ∧
    (injectCSSAsFile 0 "x" (some 2)
        (injectCSSAsFile 0 "x" (some 1) emptyCssState)).cssToInjectFile =
      emptyCssState.cssToInjectFile ++ [("x", some 2)] ∧
    (injectCSSAsFile 0 "x" (some 2)
        (injectCSSAsFile 0 "x" (some 1) emptyCssState)).cssToInjectFile.length =
      (injectCSSAsFile 0 "x" (some 1) emptyCssState).cssToInjectFile.length ∧
    (fire 0 (injectCSSAsFile 0 "x" (some 2)
        (injectCSSAsFile 0 "x" (some 1) emptyCssState))).filter
        (fun a => a.source = CssSource.file "x") = [⟨0, CssSource.file "x", some 2⟩] :=
  injectCSS_same_key_replaces emptyCssState 0 "x" (some 1) (some 2)
    (by decide) (by decide) (by decide) (by decide)

/-!
## Menu builder (`menu.ts`)

The menu tree is modelled by flat item lists per submenu.  `MenuItem`
records each entry's kind and label; checked-state and click behaviour are
modelled separately where a claim is about them (tray radio group, proxy
prompt, plugin toggles).
-/

/-- One entry of a menu template: a config-backed checkbox, a radio button,
a separator, a host-provided role, a custom click handler, or a named
nested submenu. -/
inductive MenuItem
  | checkboxOpt (label : String)
  | radioOpt (label : String)
  | separator
  | roleOf (role : String)
  | customClick (label : String)
  | submenu (label : String)
  deriving DecidableEq, Repr

/-- The `Advanced options` submenu (`menu.ts` lines 276-338): five config
checkboxes, a separator, the platform-dependent DevTools entry — a custom
click handler on macOS (the `toggleDevTools` role cannot be used there),
the generic role elsewhere — and the config editor. -/
def advancedOptionsSubmenu (p : Platform) : List MenuItem :=
  [MenuItem.checkboxOpt "Proxy",
   MenuItem.checkboxOpt "Override useragent",
   MenuItem.checkboxOpt "Disable hardware acceleration",
   MenuItem.checkboxOpt "Restart on config changes",
   MenuItem.checkboxOpt "Reset App cache when app starts",
   MenuItem.separator,
   (if p = Platform.macos then MenuItem.customClick "Toggle DevTools"
     else MenuItem.roleOf "toggleDevTools"),
   MenuItem.customClick "Edit config.json"]

/-- The `Options` submenu (`menu.ts` lines 81-340).  `Hide menu` is spliced
in only when `is.windows() || is.linux()`, `Start at login` only when
`is.windows() || is.macOS()`; both decisions happen while the list is
constructed, absent items are never built. -/
def optionsSubmenu (p : Platform) : List MenuItem :=
  [MenuItem.checkboxOpt "Auto-update",
   MenuItem.checkboxOpt "Resume last song when app starts",
   MenuItem.submenu "Starting page",
   MenuItem.submenu "Visual Tweaks",
   MenuItem.checkboxOpt "Single instance lock",
   MenuItem.checkboxOpt "Always on top"] ++
  (if p = Platform.windows ∨ p = Platform.linux then [MenuItem.checkboxOpt "Hide menu"]
    else []) ++
  (if p = Platform.windows ∨ p = Platform.macos
    then [MenuItem.checkboxOpt "Start at login"] else []) ++
  [MenuItem.submenu "Tray",
   MenuItem.separator,
   MenuItem.submenu "Advanced options"]

/-- The top level of `mainMenuTemplate` (`menu.ts` lines 46-389). -/
def mainMenuTemplateTop (p : Platform) : List MenuItem :=
  [MenuItem.submenu "Plugins",
   MenuItem.submenu "Options",
   MenuItem.submenu "View",
   MenuItem.submenu "Navigation"]

/-- The roles of the app-name submenu that `setApplicationMenu` builds on
`darwin` (`menu.ts` lines 394-412); `about` is its first entry. -/
def appNameSubmenuRoles : List MenuItem :=
  [MenuItem.roleOf "about", MenuItem.separator,
   MenuItem.roleOf "hide", MenuItem.roleOf "hideOthers", MenuItem.roleOf "unhide",
   MenuItem.separator,
   MenuItem.roleOf "selectAll", MenuItem.roleOf "cut", MenuItem.roleOf "copy",
   MenuItem.roleOf "paste",
   MenuItem.separator,
   MenuItem.roleOf "minimize", MenuItem.roleOf "close", MenuItem.roleOf "quit"]

/-- `setApplicationMenu` (`menu.ts` lines 390-417): the main template, with
the app-name submenu unshifted in front exactly when
`process.platform === 'darwin'`. -/
def setApplicationMenuTemplate (p : Platform) : List MenuItem :=
  (if p = Platform.macos then [MenuItem.submenu "AppName"] else []) ++
    mainMenuTemplateTop p

/-- C8: `Hide menu` is built exactly on Windows and Linux, `Start at login`
exactly on Windows and macOS, the DevTools entry is a custom click handler
exactly on macOS and the generic `toggleDevTools` role on every other
platform, and the app-name menu — whose submenu carries the `about` role —
is prepended exactly on macOS.  Each choice is made while constructing the
list; on the other platforms the item is never part of the tree. -/
theorem menu_platform_conditionals :
    ∀ p : Platform,
      (MenuItem.checkboxOpt "Hide menu" ∈ optionsSubmenu p ↔
        (p = Platform.windows ∨ p = Platform.linux)) ∧
      (MenuItem.checkboxOpt "Start at login" ∈ optionsSubmenu p ↔
        (p = Platform.windows ∨ p = Platform.macos)) ∧
      (MenuItem.customClick "Toggle DevTools" ∈ advancedOptionsSubmenu p ↔
        p = Platform.macos) ∧
      (MenuItem.roleOf "toggleDevTools" ∈ advancedOptionsSubmenu p ↔
        ¬p = Platform.macos) ∧
      (setApplicationMenuTemplate p =
        (if p = Platform.macos then [MenuItem.submenu "AppName"] else []) ++
          mainMenuTemplateTop p) ∧
      (MenuItem.submenu "AppName" ∈ setApplicationMenuTemplate p ↔ p = Platform.macos) ∧
      (appNameSubmenuRoles.head? = some (MenuItem.roleOf "about")) := by
  intro p
  cases p <;> decide

/-- The two config flags behind the tray radio group. -/
structure TrayOptions where
  tray : Bool
  appVisible : Bool
  deriving DecidableEq, Repr

/-- A radio item of the `Tray` submenu: its checked predicate and the
effect of its click handler on the two flags (two sequential
`setMenuOption` writes). -/
structure TrayRadioItem where
  label : String
  checked : TrayOptions → Bool
  click : TrayOptions → TrayOptions

/-- `Disabled` (`menu.ts` lines 235-243): checked when `!options.tray`;
click sets `options.tray := false` then `options.appVisible := true`. -/
def trayDisabledItem : TrayRadioItem where
  label := "Disabled"
  checked := fun o => !o.tray
  click := fun o => { { o with tray := false } with appVisible := true }

/-- `Enabled + app visible` (`menu.ts` lines 244-252): checked when
`options.tray && options.appVisible`; click sets both flags true. -/
def trayEnabledVisibleItem : TrayRadioItem where
  label := "Enabled + app visible"
  checked := fun o => o.tray && o.appVisible
  click := fun o => { { o with tray := true } with appVisible := true }

/-- `Enabled + app hidden` (`menu.ts` lines 253-261): checked when
`options.tray && !options.appVisible`; click sets `tray := true`,
`appVisible := false`. -/
def trayEnabledHiddenItem : TrayRadioItem where
  label := "Enabled + app hidden"
  checked := fun o => o.tray && !o.appVisible
  click := fun o => { { o with tray := true } with appVisible := false }

/-- The three radio items of the `Tray` submenu, in template order. -/
def trayRadioItems : List TrayRadioItem :=
  [trayDisabledItem, trayEnabledVisibleItem, trayEnabledHiddenItem]

/-- C4: for every value of the two flags, exactly one of the three tray
radio items is built checked, and each item's click handler drives the
flags to the exact combination for its state: Disabled → (false, true),
Enabled + app visible → (true, true), Enabled + app hidden →
(true, false). -/
theorem trayRadioItems_exclusive :
    ∀ t a : Bool,
      (trayRadioItems.map (fun i => i.checked ⟨t, a⟩)).count true = 1 ∧
      trayDisabledItem.click ⟨t, a⟩ = ⟨false, true⟩ ∧
      trayEnabledVisibleItem.click ⟨t, a⟩ = ⟨true, true⟩ ∧
      trayEnabledHiddenItem.click ⟨t, a⟩ = ⟨true, false⟩ := by
  intro t a
  cases t <;> cases a <;> decide

/-- `setProxy` (`menu.ts` lines 419-439), given the prompt's outcome
(`none` models the non-string result of a cancelled prompt) and the
`item.checked` value the handler observes.  It returns the stored
`options.proxy` value and the final checkbox state: a string submission is
written to config and checks the box iff it is non-empty; cancellation
writes nothing and flips `item.checked` back. -/
def setProxy (checkedAtHandler : Bool) (proxyBefore : String)
    (promptResult : Option String) : String × Bool :=
  match promptResult with
  | some output => (output, if output = "" then false else true)
  | none => (proxyBefore, !checkedAtHandler)

/-- A click on the `Proxy` checkbox: Electron toggles `item.checked`
before invoking the click handler, so `setProxy` observes the negation of
the pre-click state. -/
def proxyMenuClick (preClickChecked : Bool) (proxyBefore : String)
    (promptResult : Option String) : String × Bool :=
  setProxy (!preClickChecked) proxyBefore promptResult

/-- C5: the proxy prompt has exactly three outcomes.  Cancelling writes
nothing — `options.proxy` keeps its pre-click value — and restores the
checkbox to its pre-click state; submitting the empty string stores `""`
and leaves the box unchecked; submitting a non-empty string stores exactly
that string and leaves the box checked. -/
theorem proxyMenuClick_outcomes :
    ∀ (pre : Bool) (proxyBefore : String),
      proxyMenuClick pre proxyBefore none = (proxyBefore, pre) ∧
      proxyMenuClick pre proxyBefore (some "") = ("", false) ∧
      ∀ v : String, v ≠ "" → proxyMenuClick pre proxyBefore (some v) = (v, true) := by
  intro pre proxyBefore
  refine ⟨?_, ?_, ?_⟩
  · cases pre <;> simp [proxyMenuClick, setProxy]
  · simp [proxyMenuClick, setProxy]
  · intro v hv
    simp [proxyMenuClick, setProxy, hv]

/-- Witness for `proxyMenuClick_outcomes` at the spec's example address. -/
theorem proxyMenuClick_outcomes_witness :
    proxyMenuClick true "old" none = ("old", true) ∧
    proxyMenuClick true "old" (some "") = ("", false) ∧
    proxyMenuClick true "old" (some "socks5://127.0.0.1:9999") =
      ("socks5://127.0.0.1:9999", true) :=
  ⟨(proxyMenuClick_outcomes true "old").1,
    (proxyMenuClick_outcomes true "old").2.1,
    (proxyMenuClick_outcomes true "old").2.2 "socks5://127.0.0.1:9999" (by decide)⟩

/-- A child of an expanded plugin entry: the `Enabled` checkbox, the
separator, or one of the items the plugin's `menu.js` contributes
(identified opaquely). -/
inductive PluginSubEntry
  | enabledCheckbox (label : String) (checked : Bool) (refreshes : Bool)
  | separatorItem
  | contributed (id : Nat)
  deriving DecidableEq, Repr

/-- The entry rendered for one plugin in the `Plugins` submenu: either a
bare enabled-checkbox (`pluginEnabledMenu`, `menu.ts` lines 21-36) or a
labelled submenu with children. -/
inductive PluginEntry
  | bare (label : String) (checked : Bool) (refreshes : Bool)
  | nested (label : String) (children : List PluginSubEntry)
  deriving DecidableEq, Repr

/-- Whether the rendered entry is the nested shape. -/
def PluginEntry.isNested : PluginEntry → Bool
  | PluginEntry.nested _ _ => true
  | PluginEntry.bare _ _ _ => false

/-- The per-plugin branch of the `Plugins` submenu (`menu.ts` lines
50-77): when `existsSync(<plugin>/menu.js)` holds and the plugin is
enabled, a submenu of enabled-checkbox, separator and the contributed
items; when the hook exists but the plugin is disabled, a bare checkbox
that refreshes the menu; when the hook is missing, a bare checkbox. -/
def pluginMenuEntry (pluginLabel : String) (hookExists enabled : Bool)
    (contrib : List PluginSubEntry) : PluginEntry :=
  if hookExists then
    if !enabled then PluginEntry.bare pluginLabel enabled true
    else PluginEntry.nested pluginLabel
      (PluginSubEntry.enabledCheckbox "Enabled" enabled true ::
        PluginSubEntry.separatorItem :: contrib)
  else PluginEntry.bare pluginLabel enabled false

/-- C6 counterexample: a plugin whose `menu.js` hook exists but which is
disabled renders the bare checkbox, not the nested shape — so the presence
of the hook alone does not determine which shape is rendered. -/
theorem pluginMenuEntry_hook_only_counterexample :
    pluginMenuEntry "x" true false [] = PluginEntry.bare "x" false true ∧
    (pluginMenuEntry "x" true false []).isNested = false := by
  decide

/-- C6 amended: the nested shape — enabled-checkbox, separator, then the
plugin's contributed items — is rendered exactly when the menu hook exists
AND the plugin is enabled; otherwise a bare enabled-checkbox is rendered
(carrying a menu-refresh callback exactly when the hook exists). -/
theorem pluginMenuEntry_shape :
    ∀ (label : String) (hookExists enabled : Bool) (contrib : List PluginSubEntry),
      pluginMenuEntry label hookExists enabled contrib =
        (if hookExists && enabled then
          PluginEntry.nested label
            (PluginSubEntry.enabledCheckbox "Enabled" enabled true ::
              PluginSubEntry.separatorItem :: contrib)
        else PluginEntry.bare label enabled hookExists) ∧
      (pluginMenuEntry label hookExists enabled contrib).isNested =
        (hookExists && enabled) := by
  intro label hookExists enabled contrib
  cases hookExists <;> cases enabled <;>
    simp [pluginMenuEntry, PluginEntry.isNested]

/-- `fileExists` (`src/plugins/utils.ts` lines 14-28), as the pair of
callback invocations the `fs.access` completion induces: on an error the
optional error callback is invoked (when supplied) and the function
returns; otherwise the exists callback is invoked.  The source function
itself returns nothing — its whole observable outcome is which callback
fires. -/
def fileExists (accessError : Bool) (hasErrorCallback : Bool) : Bool × Bool :=
  if accessError then (false, hasErrorCallback) else (true, false)

/-- C9: the exists callback fires exactly when the access check reports no
error, the (supplied) error callback fires exactly when it reports one,
and no call ever fires both — there is no combined success/failure return
value, only these two invocation flags. -/
theorem fileExists_callbacks :
    ∀ accessError hasErrorCallback : Bool,
      ((fileExists accessError hasErrorCallback).1 = true ↔ accessError = false) ∧
      ((fileExists accessError hasErrorCallback).2 = true ↔
        (accessError = true ∧ hasErrorCallback = true)) ∧
      ¬((fileExists accessError hasErrorCallback).1 = true ∧
        (fileExists accessError hasErrorCallback).2 = true) := by
  intro accessError hasErrorCallback
  cases accessError <;> cases hasErrorCallback <;> decide
